import Mathlib

/-!
# gf: saved grep patterns

A shallow embedding of `main.go`: the pattern definition, the inline pattern
resolution and command assembly of `main`, and the store functions
`getPatternDir`, `savePattern` and `getPatterns`.

Go strings are embedded as Lean strings (valid UTF-8 text); `len` is the byte
length and slice bounds are byte offsets. The operating system is a `World`
value threaded through the functions; the Go standard library is embedded by
the functions of the first section, and the parts of it that are large tables
or codecs are fields of `Lib`.
-/

namespace Gf

/-- The `pattern` struct: one stored pattern definition. -/
structure pattern where
  Flags : String
  Pattern : String
  Patterns : List String
  Engine : String
deriving DecidableEq, Repr

/-! ## Standard library -/

deriving instance DecidableEq for Except

/-- Go `unicode.IsSpace`: the Latin-1 switch and the White_Space ranges above it. -/
def IsSpace (r : Char) : Bool :=
  let n := r.toNat
  if n ≤ 0xFF then
    n = 0x09 || n = 0x0A || n = 0x0B || n = 0x0C || n = 0x0D || n = 0x20 || n = 0x85 || n = 0xA0
  else
    n = 0x1680 || (0x2000 ≤ n && n ≤ 0x200A) || n = 0x2028 || n = 0x2029 || n = 0x202F
      || n = 0x205F || n = 0x3000

/-- The scanning loop of Go `strings.FieldsFunc`: the second argument is the field
being read (its runes, last first) when inside a field, `none` between fields
(the source keeps its start index, negative between fields). A separator
closes the open field; the end of the input closes it too. -/
def FieldsFunc.loop (f : Char → Bool) : List Char → Option (List Char) → List (List Char)
  | [], none => []
  | [], some cur => [cur.reverse]
  | r :: rest, none => if f r then loop f rest none else loop f rest (some [r])
  | r :: rest, some cur =>
    if f r then cur.reverse :: loop f rest none else loop f rest (some (r :: cur))

/-- Go `strings.FieldsFunc`. -/
def FieldsFunc (s : String) (f : Char → Bool) : List String :=
  (FieldsFunc.loop f s.data none).map String.mk

/-- Go `strings.Fields`: split around runs of white space (`unicode.IsSpace`). -/
def Fields (s : String) : List String :=
  FieldsFunc s IsSpace

/-- Go `strings.Join`: the elements with `sep` between neighbours. -/
def Join : List String → String → String
  | [], _ => ""
  | [e], _ => e
  | e :: rest, sep => rest.foldl (fun b s => b ++ sep ++ s) e

/-- The lexical element stack of Go `filepath.Clean`: empty and `.` elements are
dropped, `..` removes the element before it when there is one to remove, is
dropped at the root and kept otherwise. The stack holds the last element first. -/
def Clean.step (rooted : Bool) (out : List String) (e : String) : List String :=
  if e = "" || e = "." then out
  else if e = ".." then
    match out with
    | [] => if rooted then [] else [".."]
    | top :: below => if top = ".." then ".." :: top :: below else below
  else e :: out

/-- Go `filepath.Clean` for slash-separated paths. -/
def Clean (path : String) : String :=
  if path = "" then "."
  else
    let rooted := path.data.head? = some '/'
    let elems := (path.data.splitOnP (fun c => c = '/')).map String.mk
    let out := (elems.foldl (Clean.step rooted) []).reverse
    if rooted then "/" ++ Join out "/"
    else if out = [] then "." else Join out "/"

/-- Go `filepath.Join`: leading empty elements are ignored, the rest is joined
with the separator and cleaned; no non-empty element gives the empty path. -/
def filepathJoin (elem : List String) : String :=
  match elem.dropWhile (fun e => e = "") with
  | [] => ""
  | rest => Clean (Join rest "/")

/-- Go `len(s)`: the number of bytes of the string. -/
def len (s : String) : Int :=
  (s.utf8ByteSize : Int)

/-- Go slice expression `s[lo:hi]` on a string, with byte offsets; `none` is the
run-time panic for bounds out of range. -/
def slice (s : String) (lo hi : Int) : Option String :=
  if 0 ≤ lo ∧ lo ≤ hi ∧ hi ≤ len s then
    some (s.extract ⟨lo.toNat⟩ ⟨hi.toNat⟩)
  else none

/-- Digit table `lowerhex` of Go `strconv`. -/
def lowerhex (n : Nat) : Char :=
  "0123456789abcdef".data.getD n '0'

/-- The parts of the Go standard library taken as given: the Unicode table behind
`strconv.IsPrint` above Latin-1, what `json.Encoder.Encode` with the four-space
indent writes for a pattern, what `json.Decoder.Decode` reads from the contents
of a file, and the text of an operating-system error number. -/
structure Lib where
  isPrintWide : Char → Bool
  encode : pattern → String
  decode : String → Except String pattern
  strerror : Nat → String

/-- Go `strconv.IsPrint`. -/
def IsPrint (lib : Lib) (r : Char) : Bool :=
  let n := r.toNat
  if n ≤ 0xFF then
    if 0x20 ≤ n && n ≤ 0x7E then true
    else if 0xA1 ≤ n && n ≤ 0xFF then n != 0xAD
    else false
  else lib.isPrintWide r

/-- Go `strconv.appendEscapedRune` with the double quote, neither ASCII-only nor
graphic-only. -/
def appendEscapedRune (lib : Lib) (r : Char) : List Char :=
  let n := r.toNat
  if n = 0x22 || n = 0x5C then [Char.ofNat 0x5C, r]
  else if IsPrint lib r then [r]
  else if n = 0x07 then [Char.ofNat 0x5C, 'a']
  else if n = 0x08 then [Char.ofNat 0x5C, 'b']
  else if n = 0x0C then [Char.ofNat 0x5C, 'f']
  else if n = 0x0A then [Char.ofNat 0x5C, 'n']
  else if n = 0x0D then [Char.ofNat 0x5C, 'r']
  else if n = 0x09 then [Char.ofNat 0x5C, 't']
  else if n = 0x0B then [Char.ofNat 0x5C, 'v']
  else if n < 0x20 || n = 0x7F then
    [Char.ofNat 0x5C, 'x', lowerhex (n / 16 % 16), lowerhex (n % 16)]
  else if n < 0x10000 then
    [Char.ofNat 0x5C, 'u'] ++ [12, 8, 4, 0].map (fun s => lowerhex (n / 2 ^ s % 16))
  else
    [Char.ofNat 0x5C, 'U'] ++ [28, 24, 20, 16, 12, 8, 4, 0].map (fun s => lowerhex (n / 2 ^ s % 16))

/-- Go `strconv.Quote`, which renders the verb `%q` of a string. -/
def Quote (lib : Lib) (s : String) : String :=
  String.mk ([Char.ofNat 0x22] ++ (s.data.map (appendEscapedRune lib)).flatten ++ [Char.ofNat 0x22])

/-! ## Operating system -/

/-- Error number `ENOENT`. -/
def ENOENT : Nat := 2

/-- Error number `EEXIST`. -/
def EEXIST : Nat := 17

/-- Error number `ENOTDIR`. -/
def ENOTDIR : Nat := 20

/-- Error number `EISDIR`. -/
def EISDIR : Nat := 21

/-- What a path names. -/
inductive Node where
  | dir
  | file (content : String)
deriving DecidableEq, Repr

/-- The operating-system calls the program makes. -/
inductive Syscall where
  | userCurrent
  | stat (path : String)
  | openRead (path : String)
  | openExcl (path : String)
  | write (path : String) (data : String)
  | glob (pat : String)
  | stdinStat
deriving DecidableEq, Repr

/-- The state of the operating system around one run. `fs` is the file tree by
path. `pathErr` is the error number the kernel reports when it cannot resolve a
path (search permission, a component that is not a directory, a missing parent),
`createErr` the one for a refused creation of a new entry, `writeErr` a failing
write (how many characters still reach the file, and the error number).
`globResult` is what `filepath.Glob` returns for a pattern, `stdinMode` the file
mode of standard input (`none` when its `Stat` fails), `log` the calls made. -/
structure World where
  currentUser : Except String String
  fs : String → Option Node
  pathErr : String → Option Nat
  createErr : String → Option Nat
  writeErr : String → Option (Nat × Nat)
  globResult : String → Except String (List String)
  stdinMode : Option Nat
  log : List Syscall

/-- Append a call to the log. -/
def World.record (w : World) (c : Syscall) : World :=
  { w with log := w.log ++ [c] }

/-- Replace what a path names. -/
def World.setNode (w : World) (path : String) (n : Node) : World :=
  { w with fs := fun q => if q = path then some n else w.fs q }

/-- Go `user.Current()`: the home directory of the current user, or the error. -/
def World.userCurrent (w : World) : Except String String × World :=
  (w.currentUser, w.record .userCurrent)

/-- What the kernel finds at a path: the node, or the error number. -/
def World.lookup (w : World) (path : String) : Except Nat Node :=
  match w.pathErr path with
  | some e => .error e
  | none =>
    match w.fs path with
    | some n => .ok n
    | none => .error ENOENT

/-- Go `os.Stat(path)`: the node, or the error number. -/
def World.stat (w : World) (path : String) : Except Nat Node × World :=
  (w.lookup path, w.record (.stat path))

/-- Go `os.IsNotExist(err)` on the result of a call: only `ENOENT` is a
does-not-exist error, and no error is not one. -/
def IsNotExist {α : Type} (r : Except Nat α) : Bool :=
  match r with
  | .error e => e = ENOENT
  | .ok _ => false

/-- Go `os.Open(path)`: the node opened for reading, or the error number. -/
def World.openRead (w : World) (path : String) : Except Nat Node × World :=
  (w.lookup path, w.record (.openRead path))

/-- The result of `os.OpenFile(path, os.O_RDWR|os.O_CREATE|os.O_EXCL, 0666)`:
the error of resolving the path, `EEXIST` when the path names anything, the
error of a refused creation, or success. -/
def World.openExclResult (w : World) (path : String) : Except Nat Unit :=
  match w.pathErr path with
  | some e => .error e
  | none =>
    match w.fs path with
    | some _ => .error EEXIST
    | none =>
      match w.createErr path with
      | some e => .error e
      | none => .ok ()

/-- Go `os.OpenFile(path, os.O_RDWR|os.O_CREATE|os.O_EXCL, 0666)`: on success the
path names a new empty file. -/
def World.openExcl (w : World) (path : String) : Except Nat Unit × World :=
  match w.openExclResult path with
  | .error e => (.error e, w.record (.openExcl path))
  | .ok () => (.ok (), (w.record (.openExcl path)).setNode path (.file ""))

/-- One `Write` of `data` to the file just created at `path`: all of it, or a
leading part of it and an error number. -/
def World.write (w : World) (path data : String) : Option Nat × World :=
  let w1 := w.record (.write path data)
  match w.writeErr path with
  | some (n, e) => (some e, w1.setNode path (.file (data.take n)))
  | none => (none, w1.setNode path (.file data))

/-- Go `filepath.Glob(pat)`. -/
def World.glob (w : World) (pat : String) : Except String (List String) × World :=
  (w.globResult pat, w.record (.glob pat))

/-! ## The program -/

/-- Function `getPatternDir`: the directory where pattern files are stored. -/
def getPatternDir (w : World) : Except String String × World :=
  let current := w.userCurrent
  match current.1 with
  | .error err => (.error err, current.2)
  | .ok homeDir =>
    let configDirPath := filepathJoin [homeDir, ".config/gf"]
    let probe := current.2.stat configDirPath
    if !IsNotExist probe.1 then (.ok configDirPath, probe.2)
    else (.ok (filepathJoin [homeDir, ".gf"]), probe.2)

/-- The errors `savePattern` returns, one constructor for each `return` of an error. -/
inductive SaveError where
  | emptyName
  | emptyPattern
  | patternDir (cause : String)
  | createFile (path : String) (errno : Nat)
  | writeFile (path : String) (errno : Nat)
deriving DecidableEq, Repr

/-- The text of the error value (`Error()`). -/
def SaveError.Error (lib : Lib) : SaveError → String
  | .emptyName => "pattern name cannot be empty"
  | .emptyPattern => "pattern cannot be empty"
  | .patternDir cause => "failed to determine pattern directory: " ++ cause
  | .createFile path errno =>
    "failed to create pattern file: " ++ ("open " ++ path ++ ": " ++ lib.strerror errno)
  | .writeFile path errno =>
    "failed to write pattern file: " ++ ("write " ++ path ++ ": " ++ lib.strerror errno)

/-- The two errors of the check for an empty name and pattern. -/
def SaveError.isValidation : SaveError → Bool
  | .emptyName => true
  | .emptyPattern => true
  | _ => false

/-- Function `savePattern`: `none` is the `nil` error. -/
def savePattern (lib : Lib) (patternName flags patternValue : String) (w : World) :
    Option SaveError × World :=
  if patternName = "" then (some .emptyName, w)
  else if patternValue = "" then (some .emptyPattern, w)
  else
    let p : pattern := { Flags := flags, Pattern := patternValue, Patterns := [], Engine := "" }
    let dir := getPatternDir w
    match dir.1 with
    | .error err => (some (.patternDir err), dir.2)
    | .ok patternDir =>
      let patternFilePath := filepathJoin [patternDir, patternName ++ ".json"]
      let file := dir.2.openExcl patternFilePath
      match file.1 with
      | .error errno => (some (.createFile patternFilePath errno), file.2)
      | .ok () =>
        let written := file.2.write patternFilePath (lib.encode p)
        match written.1 with
        | some errno => (some (.writeFile patternFilePath errno), written.2)
        | none => (none, written.2)

/-- The `for ... range jsonFiles` loop of `getPatterns`; `none` is the panic of a
slice expression out of range. -/
def getPatterns.loop (patternDirectory : String) : List String → List String → Option (List String)
  | [], patterns => some patterns
  | jsonFile :: rest, patterns =>
    match slice jsonFile (len patternDirectory + 1) (len jsonFile - 5) with
    | none => none
    | some patternName => loop patternDirectory rest (patterns ++ [patternName])

/-- Function `getPatterns`: the names and no error, or the error (the names are
then the nil slice); `none` is a panic. -/
def getPatterns (w : World) : Option (Except String (List String)) × World :=
  let dir := getPatternDir w
  match dir.1 with
  | .error err => (some (.error ("failed to determine pattern directory: " ++ err)), dir.2)
  | .ok patternDirectory =>
    let found := dir.2.glob (patternDirectory ++ "/*.json")
    match found.1 with
    | .error err => (some (.error err), found.2)
    | .ok jsonFiles =>
      match getPatterns.loop patternDirectory jsonFiles [] with
      | none => (none, found.2)
      | some patterns => (some (.ok patterns), found.2)

/-- Mode bit `os.ModeCharDevice`. -/
def ModeCharDevice : Nat := 2 ^ 21

/-- Function `isStdinPiped`: standard input is not a character device. The error
of `os.Stdin.Stat()` is dropped and the file info is used, so a failed `Stat`
panics (`none`). -/
def isStdinPiped (w : World) : Option Bool × World :=
  match w.stdinMode with
  | none => (none, w.record .stdinStat)
  | some mode => (some (mode &&& ModeCharDevice == 0), w.record .stdinStat)

/-- The parsed command line: the three boolean flags and the positional arguments. -/
structure Args where
  saveMode : Bool
  listMode : Bool
  dumpMode : Bool
  args : List String

/-- Go `flag.Arg(i)`: the i-th positional argument, the empty string when absent. -/
def Args.Arg (a : Args) (i : Nat) : String :=
  a.args.getD i ""

/-- What a run of `main` does that can be seen from outside: text written to
standard output or standard error, and the external command run with the
standard streams of the process. -/
inductive Event where
  | stdout (text : String)
  | stderr (text : String)
  | run (name : String) (arg : List String)
deriving DecidableEq, Repr

/-- Lines 96 to 104 of `main`: the pattern of the definition is kept when it is not
empty, else it is built from the list of patterns; with neither, the message
written to standard error. -/
def main.resolve (filename : String) (pat : pattern) : Except String pattern :=
  if pat.Pattern = "" then
    if pat.Patterns.length = 0 then
      .error ("Pattern file \x27" ++ filename ++ "\x27 contains no pattern(s)\n")
    else
      .ok { pat with Pattern := "(" ++ Join pat.Patterns "|" ++ ")" }
  else .ok pat

/-- Line 108 of `main`: the text `fmt.Printf("grep %v %q %v\n", ...)` writes. -/
def main.dump (lib : Lib) (pat : pattern) (files : String) : String :=
  "grep " ++ pat.Flags ++ " " ++ Quote lib pat.Pattern ++ " " ++ files ++ "\n"

/-- Lines 110 to 124 of `main`: the command for the two cases of `isStdinPiped`. -/
def main.command (pat : pattern) (files : String) (piped : Bool) : Event :=
  let operator := if pat.Engine ≠ "" then pat.Engine else "grep"
  if piped then
    .run operator (Fields pat.Flags ++ [pat.Pattern])
  else
    .run operator (Fields pat.Flags ++ [pat.Pattern, files])

/-- Lines 70 to 94 of `main`: the pattern file is opened and decoded; the result is
the file name and the definition, or the message written to standard error. -/
def main.load (lib : Lib) (patternName : String) (w : World) :
    Except String (String × pattern) × World :=
  let dir := getPatternDir w
  match dir.1 with
  | .error _ => (.error "Unable to open user\x27s pattern directory\n", dir.2)
  | .ok patternDir =>
    let filename := filepathJoin [patternDir, patternName ++ ".json"]
    let file := dir.2.openRead filename
    match file.1 with
    | .error _ => (.error "No such pattern\n", file.2)
    | .ok node =>
      let decoded : Except String pattern :=
        match node with
        | .file content => lib.decode content
        | .dir => .error ("read " ++ filename ++ ": " ++ lib.strerror EISDIR)
      match decoded with
      | .error err =>
        (.error ("Pattern file \x27" ++ filename ++ "\x27 is malformed: " ++ err ++ "\n"), file.2)
      | .ok pat => (.ok (filename, pat), file.2)

/-- Function `main`: the events of the run (`none` when it panics) and the world
after it. -/
def main (lib : Lib) (a : Args) (w : World) : Option (List Event) × World :=
  if a.listMode then
    let listed := getPatterns w
    match listed.1 with
    | none => (none, listed.2)
    | some (.error err) => (some [.stderr (err ++ "\n")], listed.2)
    | some (.ok patternNames) => (some [.stdout (Join patternNames "\n" ++ "\n")], listed.2)
  else if a.saveMode then
    let saved := savePattern lib (a.Arg 0) (a.Arg 1) (a.Arg 2) w
    match saved.1 with
    | some err => (some [.stderr (err.Error lib ++ "\n")], saved.2)
    | none => (some [], saved.2)
  else
    let patternName := a.Arg 0
    let files := if a.Arg 1 = "" then "." else a.Arg 1
    let loaded := main.load lib patternName w
    match loaded.1 with
    | .error msg => (some [.stderr msg], loaded.2)
    | .ok (filename, pat0) =>
      match main.resolve filename pat0 with
      | .error msg => (some [.stderr msg], loaded.2)
      | .ok pat =>
        if a.dumpMode then (some [.stdout (main.dump lib pat files)], loaded.2)
        else
          let piped := isStdinPiped loaded.2
          match piped.1 with
          | none => (none, piped.2)
          | some isPiped => (some [main.command pat files isPiped], piped.2)

/-! ## Definitions in the words of the specification -/

/-- The whitespace-separated fields of a string in the words of the specification:
the string is cut at every white-space character and the empty pieces (between
neighbouring separators, before the first and after the last) are dropped. -/
def whitespaceFields (s : String) : List String :=
  ((s.data.splitOnP IsSpace).filter (fun piece => !piece.isEmpty)).map String.mk

/-- The alternation of the specification: the patterns in their order with a bar
between neighbours, in one pair of parentheses. -/
def alternation (ps : List String) : String :=
  "(" ++ String.intercalate "|" ps ++ ")"

/-! ## Worlds and definitions used as concrete inputs -/

/-- A library instance for concrete runs: nothing above Latin-1 is printable,
every file decodes to the definition with flags `-Hnri` and pattern `foo`. -/
def demoLib : Lib :=
  { isPrintWide := fun _ => false
    encode := fun pat => pat.Flags ++ "\n" ++ pat.Pattern ++ "\n"
    decode := fun _ => .ok { Flags := "-Hnri", Pattern := "foo", Patterns := [], Engine := "" }
    strerror := fun _ => "error" }

/-- A world with home `/home/u`, the store `/home/u/.gf` holding `demo.json`, no
`.config/gf`, and standard input a terminal. -/
def demoWorld : World :=
  { currentUser := .ok "/home/u"
    fs := fun q =>
      if q = "/home/u" ∨ q = "/home/u/.gf" then some .dir
      else if q = "/home/u/.gf/demo.json" then some (.file "demo")
      else none
    pathErr := fun _ => none
    createErr := fun _ => none
    writeErr := fun _ => none
    globResult := fun _ => .ok ["/home/u/.gf/demo.json"]
    stdinMode := some (2 ^ 26 + 2 ^ 21 + 0x190)
    log := [] }

/-- The world `demoWorld` with standard input a pipe (mode bit `os.ModeNamedPipe`). -/
def pipedWorld : World :=
  { demoWorld with stdinMode := some (2 ^ 25 + 0x1B0) }

/-- The library `demoLib` with every file decoding to a definition that names the
engine `rg`. -/
def rgLib : Lib :=
  { demoLib with
    decode := fun _ => .ok { Flags := "-Hnri", Pattern := "foo", Patterns := [], Engine := "rg" } }

/-- A world with home `/home/u` where `/home/u/.config` is a regular file, so that
nothing exists at `/home/u/.config/gf` and the kernel answers `ENOTDIR` for it. -/
def configIsFileWorld : World :=
  { demoWorld with
    fs := fun q =>
      if q = "/home/u" ∨ q = "/home/u/.gf" then some .dir
      else if q = "/home/u/.config" then some (.file "")
      else none
    pathErr := fun q => if q = "/home/u/.config/gf" then some ENOTDIR else none }

/-- A world with home `/home/u` where `/home/u/.config/gf` is a regular file, not a
directory. -/
def gfIsFileWorld : World :=
  { demoWorld with
    fs := fun q =>
      if q = "/home/u" ∨ q = "/home/u/.gf" ∨ q = "/home/u/.config" then some .dir
      else if q = "/home/u/.config/gf" then some (.file "")
      else none }

/-- The command line `gf demo src/`. -/
def runArgs : Args :=
  { saveMode := false, listMode := false, dumpMode := false, args := ["demo", "src/"] }

/-- The command line `gf -dump demo src/`. -/
def dumpArgs : Args :=
  { saveMode := false, listMode := false, dumpMode := true, args := ["demo", "src/"] }

/-- The definition with flags `-Hnri` and pattern `foo`. -/
def demoPattern : pattern :=
  { Flags := "-Hnri", Pattern := "foo", Patterns := [], Engine := "" }

/-! ## Library facts -/

theorem Join_go_eq_foldl (sep : String) (rest : List String) (acc : String) :
    String.intercalate.go acc sep rest = rest.foldl (fun b s => b ++ sep ++ s) acc := by
  induction rest generalizing acc with
  | nil => rfl
  | cons s rest ih => simp only [String.intercalate.go, List.foldl_cons, ih]

theorem Join_eq_intercalate (elems : List String) (sep : String) :
    Join elems sep = String.intercalate sep elems := by
  match elems with
  | [] => rfl
  | [e] => rfl
  | e :: s :: rest =>
    simp only [Join, String.intercalate, Join_go_eq_foldl]

theorem FieldsFunc_loop_eq (f : Char → Bool) (l : List Char) :
    FieldsFunc.loop f l none = (l.splitOnP f).filter (fun piece => !piece.isEmpty) ∧
    ∀ cur : List Char, cur ≠ [] →
      FieldsFunc.loop f l (some cur)
        = ((l.splitOnP f).modifyHead (fun h => cur.reverse ++ h)).filter
            (fun piece => !piece.isEmpty) := by
  induction l with
  | nil =>
    refine ⟨by simp [FieldsFunc.loop], ?_⟩
    intro cur hcur
    simp [FieldsFunc.loop, List.modifyHead, hcur]
  | cons r rest ih =>
    obtain ⟨ih0, ih1⟩ := ih
    refine ⟨?_, ?_⟩
    · by_cases hr : f r = true
      · simp [FieldsFunc.loop, hr, ih0]
      · simp only [FieldsFunc.loop, hr, List.splitOnP_cons]
        rw [ih1 [r] (by simp)]
        simp
    · intro cur hcur
      by_cases hr : f r = true
      · simp [FieldsFunc.loop, hr, ih0, List.modifyHead, hcur]
      · simp only [FieldsFunc.loop, hr, List.splitOnP_cons]
        rw [ih1 (r :: cur) (by simp)]
        simp [List.modifyHead_modifyHead, Function.comp_def]

theorem Fields_eq_whitespaceFields (s : String) : Fields s = whitespaceFields s := by
  simp only [Fields, FieldsFunc, whitespaceFields, (FieldsFunc_loop_eq IsSpace s.data).1]

theorem byteSize_append (s t : String) :
    (s ++ t).utf8ByteSize = s.utf8ByteSize + t.utf8ByteSize := by
  cases s; cases t
  exact String.utf8Len_append _ _

theorem slice_name (d n : String) :
    slice (d ++ "/" ++ n ++ ".json") (len d + 1) (len (d ++ "/" ++ n ++ ".json") - 5) = some n := by
  have hsz : (d ++ "/" ++ n ++ ".json").utf8ByteSize
      = d.utf8ByteSize + 1 + n.utf8ByteSize + 5 := by
    simp only [byteSize_append]
    rfl
  have hslash : String.utf8Len ("/" : String).data = 1 := rfl
  have hstr : d ++ "/" ++ n ++ ".json"
      = ⟨(d.data ++ ("/" : String).data) ++ n.data ++ (".json" : String).data⟩ :=
    String.ext (by simp)
  have hext : (d ++ "/" ++ n ++ ".json").extract ⟨d.utf8ByteSize + 1⟩
      ⟨d.utf8ByteSize + 1 + n.utf8ByteSize⟩ = n := by
    have h := String.extract_of_valid (d.data ++ ("/" : String).data) n.data (".json" : String).data
    rw [String.utf8Len_append, hslash] at h
    rw [hstr]
    exact h
  unfold slice len
  rw [hsz]
  have h1 : ((d.utf8ByteSize : Int) + 1).toNat = d.utf8ByteSize + 1 := by omega
  have h2 : (((d.utf8ByteSize + 1 + n.utf8ByteSize + 5 : Nat) : Int) - 5).toNat
      = d.utf8ByteSize + 1 + n.utf8ByteSize := by omega
  rw [h1, h2, hext]
  rw [if_pos]
  omega

theorem getPatterns_loop_names (d : String) (names acc : List String) :
    getPatterns.loop d (names.map fun n => d ++ "/" ++ n ++ ".json") acc = some (acc ++ names) := by
  induction names generalizing acc with
  | nil => simp [getPatterns.loop]
  | cons n rest ih =>
    simp only [List.map_cons, getPatterns.loop, slice_name, ih, List.append_assoc,
      List.singleton_append]


/-! ## Frame facts: which parts of the world a function leaves alone -/

theorem getPatternDir_frame (w : World) :
    ∃ l, (getPatternDir w).2 = { w with log := l } := by
  unfold getPatternDir World.userCurrent World.stat World.record
  cases w.currentUser with
  | error e => exact ⟨_, rfl⟩
  | ok home =>
    simp only
    split <;> exact ⟨_, rfl⟩

theorem load_frame (lib : Lib) (patternName : String) (w : World) :
    ∃ l, (main.load lib patternName w).2 = { w with log := l } := by
  obtain ⟨l, hl⟩ := getPatternDir_frame w
  unfold main.load
  simp only [hl, World.openRead, World.record]
  split
  · exact ⟨_, rfl⟩
  · split
    · exact ⟨_, rfl⟩
    · split <;> exact ⟨_, rfl⟩

/-! ## Facts about the program -/

theorem load_stdinMode (lib : Lib) (patternName : String) (w : World) :
    (main.load lib patternName w).2.stdinMode = w.stdinMode := by
  obtain ⟨l, hl⟩ := load_frame lib patternName w
  rw [hl]

theorem getPatternDir_fs (w : World) : (getPatternDir w).2.fs = w.fs := by
  obtain ⟨l, hl⟩ := getPatternDir_frame w
  rw [hl]

theorem getPatternDir_pathErr (w : World) : (getPatternDir w).2.pathErr = w.pathErr := by
  obtain ⟨l, hl⟩ := getPatternDir_frame w
  rw [hl]

theorem getPatternDir_globResult (w : World) :
    (getPatternDir w).2.globResult = w.globResult := by
  obtain ⟨l, hl⟩ := getPatternDir_frame w
  rw [hl]

/-- The result of `getPatternDir` in full: the error of the user lookup, else the
`.gf` path exactly when the probe of `.config/gf` fails with `ENOENT`. -/
theorem getPatternDir_result (w : World) :
    (getPatternDir w).1 =
      match w.currentUser with
      | .error err => .error err
      | .ok homeDir =>
        if w.lookup (filepathJoin [homeDir, ".config/gf"]) = .error ENOENT then
          .ok (filepathJoin [homeDir, ".gf"])
        else .ok (filepathJoin [homeDir, ".config/gf"]) := by
  unfold getPatternDir World.userCurrent World.stat World.record World.lookup
  cases w.currentUser with
  | error e => rfl
  | ok home =>
    simp only
    cases w.pathErr (filepathJoin [home, ".config/gf"]) with
    | some e => by_cases he : e = ENOENT <;> simp [IsNotExist, he]
    | none =>
      cases w.fs (filepathJoin [home, ".config/gf"]) <;> simp [IsNotExist]

/-! ## The claims -/

/-- C1: in run mode (no list, save or dump flag), for a pattern file that loads and
resolves to the definition `pat` and for either answer `piped` of `isStdinPiped`,
`main` runs exactly one command: the program is the engine of `pat` when that is
not empty and `grep` otherwise, and the arguments are the whitespace-separated
fields of the flags, then the effective pattern as one argument, then, only when
standard input is not piped, the target, which is `.` when the caller gave none. -/
theorem C1_run_command (lib : Lib) (a : Args) (w : World) (filename : String)
    (pat0 pat : pattern) (piped : Bool)
    (hlist : a.listMode = false) (hsave : a.saveMode = false) (hdump : a.dumpMode = false)
    (hload : (main.load lib (a.Arg 0) w).1 = .ok (filename, pat0))
    (hres : main.resolve filename pat0 = .ok pat)
    (hpiped : (isStdinPiped w).1 = some piped) :
    (main lib a w).1 =
      some [Event.run (if pat.Engine = "" then "grep" else pat.Engine)
        (whitespaceFields pat.Flags ++ [pat.Pattern] ++
          (if piped then [] else [if a.Arg 1 = "" then "." else a.Arg 1]))] := by
  have hmode : (isStdinPiped (main.load lib (a.Arg 0) w).2).1 = some piped := by
    have h := load_stdinMode lib (a.Arg 0) w
    unfold isStdinPiped at hpiped ⊢
    rw [h]
    cases hw : w.stdinMode with
    | none => rw [hw] at hpiped; exact hpiped
    | some m => rw [hw] at hpiped; exact hpiped
  unfold main
  simp only [hlist, hsave, hdump, hload, hres, hmode, Bool.false_eq_true, if_false]
  unfold main.command
  rw [Fields_eq_whitespaceFields]
  cases piped <;> by_cases he : pat.Engine = "" <;> simp [he]

/-- C1 at `gf demo src/` in the demo world. -/
theorem C1_run_command_witness :
    (main demoLib runArgs demoWorld).1 = some [Event.run "grep" ["-Hnri", "foo", "src/"]] :=
  C1_run_command demoLib runArgs demoWorld "/home/u/.gf/demo.json" demoPattern demoPattern false
    rfl rfl rfl (by decide) (by decide) (by decide)

/-- C2: for a definition with an empty pattern and a non-empty list of patterns,
resolution succeeds and sets the pattern to the alternation of the list in its
order, in parentheses, leaving the other fields alone; the list `a`, `b`, `c`
gives `(a|b|c)`. -/
theorem C2_alternation (filename : String) (pat : pattern)
    (hpat : pat.Pattern = "") (hpats : pat.Patterns ≠ []) :
    main.resolve filename pat = .ok { pat with Pattern := alternation pat.Patterns } ∧
    main.resolve filename
        { Flags := pat.Flags, Pattern := "", Patterns := ["a", "b", "c"], Engine := pat.Engine }
      = .ok { Flags := pat.Flags, Pattern := "(a|b|c)", Patterns := ["a", "b", "c"],
              Engine := pat.Engine } := by
  refine ⟨?_, ?_⟩
  · have hlen : pat.Patterns.length ≠ 0 := by
      intro h
      exact hpats (List.length_eq_zero.mp h)
    simp only [main.resolve, hpat, hlen, if_true, if_false, alternation, Join_eq_intercalate]
  · simp only [main.resolve, List.length_cons, List.length_nil, if_true]
    rfl

/-- C2 at the list `x`, `y` with flags `-r`. -/
theorem C2_alternation_witness :
    main.resolve "f.json" { Flags := "-r", Pattern := "", Patterns := ["x", "y"], Engine := "" }
      = .ok { Flags := "-r", Pattern := "(x|y)", Patterns := ["x", "y"], Engine := "" } :=
  (C2_alternation "f.json" { Flags := "-r", Pattern := "", Patterns := ["x", "y"], Engine := "" }
    rfl (by decide)).1

/-- C3: resolution fails, with the message that the file contains no pattern, if
and only if the pattern is empty and the list of patterns is empty; it succeeds
for every other definition; and a non-empty pattern is kept as it is, with the
rest of the definition, whatever the list holds. -/
theorem C3_empty_pattern_error (filename : String) (pat : pattern) :
    (main.resolve filename pat
        = .error ("Pattern file \x27" ++ filename ++ "\x27 contains no pattern(s)\n")
      ↔ (pat.Pattern = "" ∧ pat.Patterns = [])) ∧
    ((∃ msg, main.resolve filename pat = .error msg) ↔ (pat.Pattern = "" ∧ pat.Patterns = [])) ∧
    (¬ (pat.Pattern = "" ∧ pat.Patterns = []) → ∃ q, main.resolve filename pat = .ok q) ∧
    (pat.Pattern ≠ "" → main.resolve filename pat = .ok pat) := by
  by_cases hp : pat.Pattern = ""
  · by_cases hl : pat.Patterns = []
    · simp [main.resolve, hp, hl]
    · have hlen : pat.Patterns.length ≠ 0 := fun h => hl (List.length_eq_zero.mp h)
      simp [main.resolve, hp, hl, hlen]
  · simp [main.resolve, hp]

/-- C3 at a definition with pattern `foo` and a list of patterns beside it. -/
theorem C3_empty_pattern_error_witness :
    (∃ q, main.resolve "f.json"
        { Flags := "", Pattern := "foo", Patterns := ["x"], Engine := "" } = .ok q) ∧
    main.resolve "f.json" { Flags := "", Pattern := "foo", Patterns := ["x"], Engine := "" }
      = .ok { Flags := "", Pattern := "foo", Patterns := ["x"], Engine := "" } :=
  ⟨(C3_empty_pattern_error "f.json"
      { Flags := "", Pattern := "foo", Patterns := ["x"], Engine := "" }).2.2.1 (by decide),
   (C3_empty_pattern_error "f.json"
      { Flags := "", Pattern := "foo", Patterns := ["x"], Engine := "" }).2.2.2 (by decide)⟩

/-- C4, as stated, fails: with flags `-Hnri`, pattern `foo`, target `src/` and
standard input not piped, the command built is not `grep` with the arguments
`-H`, `-n`, `-r`, `-i`, `foo`, `src/`. -/
theorem C4_split_flags_refuted :
    main.command demoPattern "src/" false
      ≠ Event.run "grep" ["-H", "-n", "-r", "-i", "foo", "src/"] := by
  decide

/-- C4, amended: with flags `-Hnri`, pattern `foo`, target `src/` and standard input
not piped, the command built is `grep` with the arguments `-Hnri`, `foo`, `src/`
(the flags hold no white space, so they are one argument), and that is what
`gf demo src/` runs. -/
theorem C4_command_example :
    main.command demoPattern "src/" false = Event.run "grep" ["-Hnri", "foo", "src/"] ∧
    (main demoLib runArgs demoWorld).1 = some [Event.run "grep" ["-Hnri", "foo", "src/"]] := by
  decide

/-- C5 at the failing input: for a definition with engine `rg`, flags `-Hnri` and
pattern `foo` and the target `src/`, dump mode prints the line
`grep -Hnri "foo" src/`, while run mode runs the program `rg`. -/
theorem C5_dump_ignores_engine :
    (main rgLib dumpArgs demoWorld).1 = some [Event.stdout "grep -Hnri \x22foo\x22 src/\n"] ∧
    (main rgLib runArgs demoWorld).1 = some [Event.run "rg" ["-Hnri", "foo", "src/"]] := by
  decide

/-- C6 at the failing input: with standard input a pipe, `gf -dump demo src/` prints
the line `grep -Hnri "foo" src/`, target included, while `gf demo src/` runs `grep`
with the arguments `-Hnri`, `foo` and no target. -/
theorem C6_dump_keeps_target_when_piped :
    (isStdinPiped pipedWorld).1 = some true ∧
    (main demoLib dumpArgs pipedWorld).1
      = some [Event.stdout "grep -Hnri \x22foo\x22 src/\n"] ∧
    (main demoLib runArgs pipedWorld).1 = some [Event.run "grep" ["-Hnri", "foo"]] := by
  decide

/-- C7: when the store directory resolves to `dir` and the path of `<name>.json` in
it already names something (a file with any contents, or a directory),
`savePattern` returns an error and the file tree after the call is the file tree
before it, so the existing file keeps its contents and nothing is added or
removed; when name and pattern are not empty and the path resolves, the error is
the failed exclusive creation with `EEXIST`. -/
theorem C7_save_existing_name (lib : Lib) (patternName flags patternValue : String)
    (w : World) (dir : String) (node : Node)
    (hdir : (getPatternDir w).1 = .ok dir)
    (hexists : w.fs (filepathJoin [dir, patternName ++ ".json"]) = some node) :
    (∃ err, (savePattern lib patternName flags patternValue w).1 = some err) ∧
    (savePattern lib patternName flags patternValue w).2.fs = w.fs ∧
    (patternName ≠ "" → patternValue ≠ "" →
      w.pathErr (filepathJoin [dir, patternName ++ ".json"]) = none →
      (savePattern lib patternName flags patternValue w).1
        = some (.createFile (filepathJoin [dir, patternName ++ ".json"]) EEXIST)) := by
  unfold savePattern
  by_cases hn : patternName = ""
  · simp [hn]
  by_cases hv : patternValue = ""
  · simp [hn, hv]
  have hfs := getPatternDir_fs w
  have hpe := getPatternDir_pathErr w
  simp only [hn, hv, if_false, hdir, World.openExcl, World.openExclResult, hfs, hpe, hexists]
  cases hp : w.pathErr (filepathJoin [dir, patternName ++ ".json"]) with
  | some e => simp [World.record, hfs]
  | none => simp [World.record, hfs]

/-- C7 at the stored name `demo` in the demo world. -/
theorem C7_save_existing_name_witness :
    (∃ err, (savePattern demoLib "demo" "-Hnri" "bar" demoWorld).1 = some err) ∧
    (savePattern demoLib "demo" "-Hnri" "bar" demoWorld).2.fs = demoWorld.fs ∧
    (savePattern demoLib "demo" "-Hnri" "bar" demoWorld).1
      = some (.createFile "/home/u/.gf/demo.json" EEXIST) :=
  have h := C7_save_existing_name demoLib "demo" "-Hnri" "bar" demoWorld "/home/u/.gf"
    (.file "demo") (by decide) (by decide)
  ⟨h.1, h.2.1, h.2.2 (by decide) (by decide) (by decide)⟩

/-- C8: for every flags string, `savePattern` returns a validation error if and only
if the name is empty or the pattern is empty (so empty flags alone never give
one); the error is the empty-name error for an empty name and the empty-pattern
error for an empty pattern under a non-empty name; and in these cases the world
after the call is the world before it, log of calls included: no user lookup, no
probe of the store directory and no file creation took place. -/
theorem C8_save_validation (lib : Lib) (patternName flags patternValue : String) (w : World) :
    ((∃ err, (savePattern lib patternName flags patternValue w).1 = some err
        ∧ err.isValidation = true) ↔ (patternName = "" ∨ patternValue = "")) ∧
    (patternName = "" →
      savePattern lib patternName flags patternValue w = (some .emptyName, w)) ∧
    (patternName ≠ "" → patternValue = "" →
      savePattern lib patternName flags patternValue w = (some .emptyPattern, w)) := by
  unfold savePattern
  by_cases hn : patternName = ""
  · simp [hn, SaveError.isValidation]
  by_cases hv : patternValue = ""
  · simp [hn, hv, SaveError.isValidation]
  simp only [hn, hv, if_false, or_self, iff_false, not_exists, not_and, false_implies,
    not_true_eq_false, not_false_eq_true, implies_true, and_true]
  intro err herr
  cases hd : (getPatternDir w).1 with
  | error e =>
    rw [hd] at herr
    simp only [Option.some.injEq] at herr
    subst herr
    simp [SaveError.isValidation]
  | ok dir =>
    rw [hd] at herr
    simp only at herr
    cases hf : ((getPatternDir w).2.openExcl (filepathJoin [dir, patternName ++ ".json"])).1 with
    | error e =>
      rw [hf] at herr
      simp only [Option.some.injEq] at herr
      subst herr
      simp [SaveError.isValidation]
    | ok u =>
      rw [hf] at herr
      simp only at herr
      split at herr
      · simp only [Option.some.injEq] at herr
        subst herr
        simp [SaveError.isValidation]
      · exact absurd herr (by simp)

/-- C8 at an empty name, at an empty pattern, and at empty flags alone. -/
theorem C8_save_validation_witness :
    savePattern demoLib "" "-Hnri" "foo" demoWorld = (some .emptyName, demoWorld) ∧
    savePattern demoLib "new" "-Hnri" "" demoWorld = (some .emptyPattern, demoWorld) ∧
    ¬ (∃ err, (savePattern demoLib "new" "" "foo" demoWorld).1 = some err
        ∧ err.isValidation = true) :=
  ⟨(C8_save_validation demoLib "" "-Hnri" "foo" demoWorld).2.1 rfl,
   (C8_save_validation demoLib "new" "-Hnri" "" demoWorld).2.2 (by decide) rfl,
   fun h => absurd ((C8_save_validation demoLib "new" "" "foo" demoWorld).1.mp h) (by decide)⟩

/-- C9: when the store directory resolves to `d` and the glob for `d/*.json` returns
the matches `d/n.json` for the names `n` of a list, `getPatterns` does not panic
(every slice is in range) and returns, without error, exactly that list of names,
in the same order and of the same length; for no match it returns the empty
list and no error. -/
theorem C9_getPatterns_names (w : World) (d : String) (names : List String)
    (hdir : (getPatternDir w).1 = .ok d)
    (hglob : w.globResult (d ++ "/*.json") = .ok (names.map fun n => d ++ "/" ++ n ++ ".json")) :
    (getPatterns w).1 = some (.ok names) ∧
    (names = [] → (getPatterns w).1 = some (.ok [])) := by
  have hmain : (getPatterns w).1 = some (.ok names) := by
    unfold getPatterns
    simp only [hdir, World.glob, getPatternDir_globResult, hglob, getPatterns_loop_names,
      List.nil_append]
  exact ⟨hmain, fun h => h ▸ hmain⟩

/-- C9 at the demo world, whose store holds `demo.json`. -/
theorem C9_getPatterns_names_witness :
    (getPatterns demoWorld).1 = some (.ok ["demo"]) :=
  (C9_getPatterns_names demoWorld "/home/u/.gf" ["demo"] (by decide) (by decide)).1

/-- C10 at the failing inputs: where `/home/u/.config` is a regular file, nothing
exists at `/home/u/.config/gf` and its probe fails with `ENOTDIR`, yet
`getPatternDir` returns `/home/u/.config/gf` and not `/home/u/.gf`; where
`/home/u/.config/gf` is a regular file and not a directory, it returns that path
too. -/
theorem C10_config_dir_not_checked :
    (configIsFileWorld.fs "/home/u/.config/gf" = none ∧
      configIsFileWorld.lookup "/home/u/.config/gf" = .error ENOTDIR ∧
      (getPatternDir configIsFileWorld).1 = .ok "/home/u/.config/gf") ∧
    (gfIsFileWorld.fs "/home/u/.config/gf" = some (.file "") ∧
      (getPatternDir gfIsFileWorld).1 = .ok "/home/u/.config/gf") := by
  decide

end Gf
